import Mathlib

/-!
Shallow embedding of the FNF-Spritesheet-Converter core (`src/main.py`).

Modelling conventions:
* Python integers are `Int` (exact, unbounded).
* An XML `SubTexture` element is a record of its attributes; `none` models an
  absent attribute.  The `rotated` attribute keeps its raw string because the
  code applies Python truthiness (`bool(s)`) to it.
* `math.ceil(math.sqrt(a))` is embedded as the exact integer ceiling of the
  square root (floating point rounding abstracted away); `int.bit_length` is
  embedded by a structural fuel recursion so the kernel can evaluate it.
* Pixel operations are modelled by the geometric data they use: for each
  placed sprite we record the crop rectangle, whether the crop is rotated
  back, and the paste position in the destination buffer.
-/

/-- One `SubTexture` XML element: the attributes `parse_sprites` and
`update_xml_with_new_sprites` read or delete. -/
structure SubTexture where
  name : String
  x : Int
  y : Int
  width : Int
  height : Int
  frameX : Option Int
  frameY : Option Int
  frameWidth : Option Int
  frameHeight : Option Int
  rotated : Option String
  deriving DecidableEq

/-- The `Sprite` dataclass of `main.py` (fields after `__post_init__`). -/
structure Sprite where
  name : String
  x : Int
  y : Int
  width : Int
  height : Int
  pos_x : Int
  pos_y : Int
  rotated : Bool
  deriving DecidableEq

/-- Dataclass construction followed by `Sprite.__post_init__`: when `rotated`
is set, `width`/`height` and `pos_x`/`pos_y` are swapped in place. -/
def mkSprite (name : String) (x y width height pos_x pos_y : Int)
    (rotated : Bool) : Sprite :=
  if rotated then
    ⟨name, x, y, height, width, pos_y, pos_x, rotated⟩
  else
    ⟨name, x, y, width, height, pos_x, pos_y, rotated⟩

/-- `Sprite.__eq__`: compares only the six geometry fields, never `name` or
`rotated`. -/
def spriteEq (a b : Sprite) : Bool :=
  a.x == b.x && a.y == b.y && a.width == b.width && a.height == b.height &&
    a.pos_x == b.pos_x && a.pos_y == b.pos_y

/-- `bool(sub_texture.get("rotated", False))`: absent attribute gives
`bool(False) = False`; a present attribute is a string, true iff non-empty. -/
def parseRotated (attr : Option String) : Bool :=
  match attr with
  | none => false
  | some s => s != ""

/-- Construction of one `Sprite` from a `SubTexture` element, exactly as in
`parse_sprites` and `update_xml_with_new_sprites` (`frameX`/`frameY` default
to 0 when absent). -/
def parseSprite (st : SubTexture) : Sprite :=
  mkSprite st.name st.x st.y st.width st.height
    (st.frameX.getD 0) (st.frameY.getD 0) (parseRotated st.rotated)

/-- `SPRITE_SIZE_MULTIPLE = 4`. -/
def SPRITE_SIZE_MULTIPLE : Int := 4

/-- `next_multiple` from `main.py`.  Lean's `%` on `Int` is euclidean mod,
which agrees with Python `%` for the positive modulus used here. -/
def next_multiple (number multiple_requested : Int) : Int :=
  if number % multiple_requested != 0 then
    number + (multiple_requested - number % multiple_requested)
  else
    number

/-- Fuel-based floor of the base-2 logarithm: `log2Fuel fuel n` is
`floor(log2 n)` whenever `1 ≤ n ≤ fuel`. -/
def log2Fuel : Nat → Nat → Nat
  | 0, _ => 0
  | fuel + 1, n => if 2 ≤ n then log2Fuel fuel (n / 2) + 1 else 0

/-- Python `int.bit_length` for non-negative input: number of binary digits. -/
def bitLength (n : Nat) : Nat :=
  if n = 0 then 0 else log2Fuel n n + 1

/-- `next_power_of_two` from `main.py`:
`1 if number == 0 else 2 ** (number - 1).bit_length()`. -/
def next_power_of_two (number : Nat) : Nat :=
  if number = 0 then 1 else 2 ^ bitLength (number - 1)

/-- Linear search for the least `r` with `n ≤ r * r`. -/
def ceilSqrtAux : Nat → Nat → Nat → Nat
  | 0, _, r => r
  | fuel + 1, n, r => if n ≤ r * r then r else ceilSqrtAux fuel n (r + 1)

/-- Exact integer ceiling of the square root, embedding
`math.ceil(math.sqrt(n))`. -/
def ceilSqrt (n : Nat) : Nat :=
  ceilSqrtAux (n + 1) n 0

/-- The geometric content of one `crop`/`transpose`/`paste` step of
`create_new_spritesheet`: the crop box in the source image, whether the crop
is rotated by 90° before pasting, and the paste position. -/
structure Placement where
  crop : Int × Int × Int × Int
  rotate : Bool
  paste : Int × Int
  deriving DecidableEq

/-- The crop box used by `create_new_spritesheet` for one sprite: with
`rotated` the box is `(x, y, x + height, y + width)`, otherwise
`(x, y, x + width, y + height)` (fields are the post-fixup record fields). -/
def cropOf (sprite : Sprite) : Int × Int × Int × Int :=
  if sprite.rotated then
    (sprite.x, sprite.y, sprite.x + sprite.height, sprite.y + sprite.width)
  else
    (sprite.x, sprite.y, sprite.x + sprite.width, sprite.y + sprite.height)

/-- The placement loop of `create_new_spritesheet`: wrap the cursor when the
cell would overrun the right edge, build the new record at the cursor with
cell size and zero offset, record the paste of the crop at
`(cursor_x - pos_x, cursor_y - pos_y)`, then advance the cursor. -/
def repackAux (max_width max_height side : Int) :
    List Sprite → Int → Int → List Sprite × List Placement
  | [], _, _ => ([], [])
  | sprite :: rest, current_x, current_y =>
    let cx := if current_x + max_width > side then 0 else current_x
    let cy := if current_x + max_width > side then current_y + max_height
      else current_y
    let new_sprite := mkSprite sprite.name cx cy max_width max_height 0 0 false
    let pl : Placement :=
      ⟨cropOf sprite, sprite.rotated, (cx - sprite.pos_x, cy - sprite.pos_y)⟩
    let r := repackAux max_width max_height side rest (cx + max_width) cy
    (new_sprite :: r.1, pl :: r.2)

/-- `create_new_spritesheet`: `total_area` sums `max_width * max_height` once
per sprite, the square destination side is
`next_power_of_two(ceil(sqrt(total_area)))`, and the loop starts with cursor
`(0, 0)`.  Returns the side, the new sprite list and the placements. -/
def create_new_spritesheet (sprite_list : List Sprite)
    (max_width max_height : Int) : Nat × List Sprite × List Placement :=
  let total_area : Int := (sprite_list.map (fun _ => max_width * max_height)).sum
  let new_dimensions := next_power_of_two (ceilSqrt total_area.toNat)
  (new_dimensions,
    repackAux max_width max_height (new_dimensions : Int) sprite_list 0 0)

/-- The accumulating loop of `parse_sprites`: maxima of `width - pos_x` and
`height - pos_y` are updated for every descriptor, then the sprite is appended
only when no geometry-equal entry exists (`sprite not in sprite_list`). -/
def parseSpritesAux : List SubTexture → List Sprite → Int → Int →
    List Sprite × Int × Int
  | [], sprite_list, max_width, max_height =>
    (sprite_list, next_multiple max_width SPRITE_SIZE_MULTIPLE,
      next_multiple max_height SPRITE_SIZE_MULTIPLE)
  | st :: rest, sprite_list, max_width, max_height =>
    let sprite := parseSprite st
    parseSpritesAux rest
      (if sprite_list.any (fun t => spriteEq sprite t) then sprite_list
        else sprite_list ++ [sprite])
      (max max_width (sprite.width - sprite.pos_x))
      (max max_height (sprite.height - sprite.pos_y))

/-- `parse_sprites`: returns the deduplicated catalog and the two maxima,
each rounded up to the next multiple of `SPRITE_SIZE_MULTIPLE`. -/
def parse_sprites (xml_root : List SubTexture) : List Sprite × Int × Int :=
  parseSpritesAux xml_root [] 0 0

/-- `original_sprite_list.index(original_sprite)`: index of the first entry
geometry-equal to the sprite, `none` when absent (Python raises ValueError). -/
def findIndexEq : List Sprite → Sprite → Option Nat
  | [], _ => none
  | t :: rest, sprite =>
    if spriteEq sprite t then some 0
    else (findIndexEq rest sprite).map (· + 1)

/-- One iteration of `update_xml_with_new_sprites`: re-derive the record, look
it up in the catalog, fetch the repacked record at the same index, overwrite
`x`/`y`/`width`/`height` and delete `frameX`, `frameY`, `frameWidth`,
`frameHeight`, `rotated`.  `none` models the fatal lookup/index errors. -/
def updateSubTexture (original_sprite_list new_sprite_list : List Sprite)
    (st : SubTexture) : Option SubTexture :=
  let original_sprite := parseSprite st
  match findIndexEq original_sprite_list original_sprite with
  | none => none
  | some index =>
    match new_sprite_list[index]? with
    | none => none
    | some new_sprite =>
      some ⟨st.name, new_sprite.x, new_sprite.y, new_sprite.width,
        new_sprite.height, none, none, none, none, none⟩

/-- `update_xml_with_new_sprites` over the whole element list. -/
def update_xml_with_new_sprites :
    List SubTexture → List Sprite → List Sprite → Option (List SubTexture)
  | [], _, _ => some []
  | st :: rest, original_sprite_list, new_sprite_list =>
    match updateSubTexture original_sprite_list new_sprite_list st with
    | none => none
    | some updated =>
      match update_xml_with_new_sprites rest original_sprite_list
          new_sprite_list with
      | none => none
      | some outs => some (updated :: outs)

/-- Modelled from the spec: the placement rule stated in §4.2 — starting
cursor `(0, 0)`; before placing, wrap to `(0, cursor_y + cell_h)` when
`cursor_x + cell_w` exceeds the side; place at the (possibly wrapped) cursor;
afterwards advance `cursor_x` by `cell_w`. -/
def gridStep (side cell_w cell_h : Int) (c : Int × Int) : Int × Int :=
  if c.1 + cell_w > side then (0, c.2 + cell_h) else c

/-- Modelled from the spec: the list of the first `n` cell positions produced
by the §4.2 placement rule from cursor `c`. -/
def gridPositions (side cell_w cell_h : Int) : Nat → Int × Int →
    List (Int × Int)
  | 0, _ => []
  | n + 1, c =>
    let p := gridStep side cell_w cell_h c
    p :: gridPositions side cell_w cell_h n (p.1 + cell_w, p.2)

/-- Modelled from the spec: the maximum of `width - pos_x` over all
constructed records, duplicates included, independent of deduplication. -/
def maxTrimW (sts : List SubTexture) : Int :=
  sts.foldl (fun m st => max m ((parseSprite st).width - (parseSprite st).pos_x)) 0

/-- Modelled from the spec: the maximum of `height - pos_y` over all
constructed records, duplicates included, independent of deduplication. -/
def maxTrimH (sts : List SubTexture) : Int :=
  sts.foldl (fun m st => max m ((parseSprite st).height - (parseSprite st).pos_y)) 0

/-- A repacked record has cell width/height, zero offset and no rotation
(the shape every output of `create_new_spritesheet` must have). -/
def isCell (mw mh : Int) (s : Sprite) : Bool :=
  s.width == mw && s.height == mh && s.pos_x == 0 && s.pos_y == 0 &&
    s.rotated == false

/-! ## Helper lemmas -/

theorem mkSprite_rotated (name : String) (x y w h px py : Int) (r : Bool) :
    (mkSprite name x y w h px py r).rotated = r := by
  cases r <;> rfl

theorem spriteEq_refl (s : Sprite) : spriteEq s s = true := by
  simp [spriteEq]

theorem repackAux_length (mw mh side : Int) (l : List Sprite) (cx cy : Int) :
    (repackAux mw mh side l cx cy).1.length = l.length := by
  induction l generalizing cx cy with
  | nil => rfl
  | cons s rest ih => simp [repackAux, ih]

theorem repackAux_names (mw mh side : Int) (l : List Sprite) (cx cy : Int) :
    (repackAux mw mh side l cx cy).1.map Sprite.name = l.map Sprite.name := by
  induction l generalizing cx cy with
  | nil => rfl
  | cons s rest ih => simp [repackAux, ih, mkSprite]

theorem repackAux_positions (mw mh side : Int) (l : List Sprite) (cx cy : Int) :
    (repackAux mw mh side l cx cy).1.map (fun s => (s.x, s.y)) =
      gridPositions side mw mh l.length (cx, cy) := by
  induction l generalizing cx cy with
  | nil => rfl
  | cons s rest ih =>
    simp only [repackAux, gridPositions, gridStep, List.map_cons,
      List.length_cons]
    by_cases h : cx + mw > side <;> simp [h, mkSprite, ih]

theorem repackAux_cells (mw mh side : Int) (l : List Sprite) (cx cy : Int) :
    (repackAux mw mh side l cx cy).1.all (isCell mw mh) = true := by
  induction l generalizing cx cy with
  | nil => rfl
  | cons s rest ih =>
    simp only [repackAux, List.all_cons, ih, Bool.and_true]
    simp [isCell, mkSprite]

theorem repackAux_placements (mw mh side : Int) (l : List Sprite) (cx cy : Int) :
    (repackAux mw mh side l cx cy).2 =
      List.zipWith
        (fun s ns =>
          (⟨cropOf s, s.rotated, (ns.x - s.pos_x, ns.y - s.pos_y)⟩ : Placement))
        l (repackAux mw mh side l cx cy).1 := by
  induction l generalizing cx cy with
  | nil => rfl
  | cons s rest ih => simp [repackAux, mkSprite, ih]

/-! ## Claim theorems -/

/-- Claim C1: constructing a `Sprite` with `rotated = true` swaps
`width`/`height` and `pos_x`/`pos_y` immediately at construction; with
`rotated = false` all six geometry fields equal the raw inputs; in both cases
the `rotated` flag itself is preserved unchanged. -/
theorem mkSprite_normalization (name : String)
    (x y width height pos_x pos_y : Int) :
    mkSprite name x y width height pos_x pos_y true =
      ⟨name, x, y, height, width, pos_y, pos_x, true⟩ ∧
    mkSprite name x y width height pos_x pos_y false =
      ⟨name, x, y, width, height, pos_x, pos_y, false⟩ ∧
    ∀ r : Bool, (mkSprite name x y width height pos_x pos_y r).rotated = r := by
  exact ⟨rfl, rfl, fun r => mkSprite_rotated name x y width height pos_x pos_y r⟩

/-- Claim C6: the parsed `rotated` flag is true exactly when the XML
attribute is present with a non-empty string value — including the literal
text "false" — and false when the attribute is absent or empty. -/
theorem parseRotated_spec :
    (∀ st : SubTexture, (parseSprite st).rotated = parseRotated st.rotated) ∧
    parseRotated none = false ∧
    (∀ s : String, parseRotated (some s) = (s != "")) ∧
    parseRotated (some "false") = true ∧
    parseRotated (some "") = false := by
  refine ⟨fun st => ?_, rfl, fun s => rfl, by decide, by decide⟩
  exact mkSprite_rotated st.name st.x st.y st.width st.height
    (st.frameX.getD 0) (st.frameY.getD 0) (parseRotated st.rotated)

/-- Claim C10: the repacker emits exactly one record per catalog entry and
carries each sprite's name through unchanged, in order. -/
theorem create_new_spritesheet_names (l : List Sprite) (cell_w cell_h : Int) :
    (create_new_spritesheet l cell_w cell_h).2.1.length = l.length ∧
    (create_new_spritesheet l cell_w cell_h).2.1.map Sprite.name =
      l.map Sprite.name := by
  constructor
  · simp [create_new_spritesheet, repackAux_length]
  · simp [create_new_spritesheet, repackAux_names]

/-- Claim C2: the repacker produces one record per catalog entry, in order,
each of cell size with zero offset and `rotated = false`, and the `(x, y)`
positions are exactly those of the row-major cursor rule of the spec
(`gridPositions`): start at `(0, 0)`, wrap to `(0, cursor_y + cell_h)` before
placing whenever `cursor_x + cell_w` exceeds the atlas side, advance by
`cell_w` after each placement. -/
theorem create_new_spritesheet_grid (l : List Sprite) (cell_w cell_h : Int) :
    (create_new_spritesheet l cell_w cell_h).2.1.length = l.length ∧
    (create_new_spritesheet l cell_w cell_h).2.1.all
      (isCell cell_w cell_h) = true ∧
    (create_new_spritesheet l cell_w cell_h).2.1.map (fun s => (s.x, s.y)) =
      gridPositions ((create_new_spritesheet l cell_w cell_h).1 : Int)
        cell_w cell_h l.length (0, 0) := by
  refine ⟨?_, ?_, ?_⟩
  · simp [create_new_spritesheet, repackAux_length]
  · simp [create_new_spritesheet, repackAux_cells]
  · simp [create_new_spritesheet, repackAux_positions]

/-- Claim C7: each placed sprite's crop is pasted at
`(cursor_x - pos_x, cursor_y - pos_y)` (the cell origin shifted backward by
the trim offset), rotated back iff the record is rotated; and the crop box —
`(x, y, x + height, y + width)` when rotated, `(x, y, x + width, y + height)`
otherwise — always covers the original pre-fixup source rectangle
`(x, y, x + raw_width, y + raw_height)`. -/
theorem create_new_spritesheet_paste (l : List Sprite) (cell_w cell_h : Int) :
    (create_new_spritesheet l cell_w cell_h).2.2 =
      List.zipWith
        (fun s ns =>
          (⟨cropOf s, s.rotated, (ns.x - s.pos_x, ns.y - s.pos_y)⟩ : Placement))
        l (create_new_spritesheet l cell_w cell_h).2.1 ∧
    ∀ (name : String) (x y w h px py : Int) (r : Bool),
      cropOf (mkSprite name x y w h px py r) = (x, y, x + w, y + h) := by
  constructor
  · simp [create_new_spritesheet, repackAux_placements]
  · intro name x y w h px py r
    cases r <;> rfl

theorem log2Fuel_spec :
    ∀ (fuel n : Nat), 1 ≤ n → n ≤ fuel →
      2 ^ log2Fuel fuel n ≤ n ∧ n < 2 ^ (log2Fuel fuel n + 1) := by
  intro fuel
  induction fuel with
  | zero => intro n h1 h2; exact absurd (h1.trans h2) (by norm_num)
  | succ f ih =>
    intro n h1 h2
    by_cases h : 2 ≤ n
    · have hrec := ih (n / 2) (by omega) (by omega)
      simp only [log2Fuel, if_pos h]
      have e1 : 2 ^ (log2Fuel f (n / 2) + 1) = 2 * 2 ^ log2Fuel f (n / 2) := by
        ring
      have e2 : 2 ^ (log2Fuel f (n / 2) + 1 + 1) =
          2 * 2 ^ (log2Fuel f (n / 2) + 1) := by ring
      omega
    · simp only [log2Fuel, if_neg h]
      have hn : n = 1 := by omega
      subst hn
      norm_num

theorem next_power_of_two_spec (n : Nat) (h : 1 ≤ n) :
    n ≤ next_power_of_two n ∧ (∃ k, next_power_of_two n = 2 ^ k) ∧
      ∀ k : Nat, n ≤ 2 ^ k → next_power_of_two n ≤ 2 ^ k := by
  rcases Nat.lt_or_ge n 2 with h2 | h2
  · have hn : n = 1 := by omega
    subst hn
    refine ⟨by decide, ⟨0, by decide⟩, fun k hk => ?_⟩
    calc next_power_of_two 1 = 1 := by decide
      _ ≤ 2 ^ k := Nat.one_le_two_pow
  · have hm : 1 ≤ n - 1 := by omega
    have hspec := log2Fuel_spec (n - 1) (n - 1) hm (le_refl _)
    have hnpot : next_power_of_two n = 2 ^ (log2Fuel (n - 1) (n - 1) + 1) := by
      unfold next_power_of_two bitLength
      rw [if_neg (by omega), if_neg (by omega)]
    refine ⟨?_, ⟨log2Fuel (n - 1) (n - 1) + 1, hnpot⟩, fun k hk => ?_⟩
    · rw [hnpot]
      omega
    · rw [hnpot]
      have hlt : 2 ^ log2Fuel (n - 1) (n - 1) < 2 ^ k := by omega
      have hk2 : log2Fuel (n - 1) (n - 1) < k :=
        (Nat.pow_lt_pow_iff_right (by norm_num)).1 hlt
      exact Nat.pow_le_pow_right (by norm_num) (by omega)

theorem ceilSqrtAux_spec :
    ∀ (fuel n r : Nat), n ≤ (r + fuel) * (r + fuel) →
      (∀ s : Nat, s < r → ¬ n ≤ s * s) →
      n ≤ ceilSqrtAux fuel n r * ceilSqrtAux fuel n r ∧
        ∀ s : Nat, n ≤ s * s → ceilSqrtAux fuel n r ≤ s := by
  intro fuel
  induction fuel with
  | zero =>
    intro n r hub hlb
    simp only [ceilSqrtAux]
    refine ⟨by simpa using hub, fun s hs => ?_⟩
    by_contra hcon
    exact hlb s (by omega) hs
  | succ f ih =>
    intro n r hub hlb
    simp only [ceilSqrtAux]
    by_cases h : n ≤ r * r
    · rw [if_pos h]
      refine ⟨h, fun s hs => ?_⟩
      by_contra hcon
      exact hlb s (by omega) hs
    · rw [if_neg h]
      refine ih n (r + 1) ?_ ?_
      · have e : r + 1 + f = r + (f + 1) := by ring
        rw [e]
        exact hub
      · intro s hs
        rcases Nat.lt_or_ge s r with h1 | h1
        · exact hlb s h1
        · have hsr : s = r := by omega
          subst hsr
          exact h

theorem ceilSqrt_spec (a : Nat) :
    a ≤ ceilSqrt a * ceilSqrt a ∧ ∀ r : Nat, a ≤ r * r → ceilSqrt a ≤ r := by
  refine ceilSqrtAux_spec (a + 1) a 0 (by nlinarith) ?_
  intro s hs
  exact absurd hs (Nat.not_lt_zero s)

theorem total_area_eq (l : List Sprite) (c : Int) :
    (l.map (fun _ => c)).sum = (l.length : Int) * c := by
  induction l with
  | nil => simp
  | cons s rest ih =>
    simp only [List.map_cons, List.sum_cons, ih, List.length_cons]
    push_cast
    ring

/-- Claim C3: the destination atlas is a square whose side is
`next_power_of_two (ceilSqrt (n * cell_w * cell_h))`; `next_power_of_two 0 = 1`
and otherwise `next_power_of_two` returns the smallest power of two greater
than or equal to its input, with `next_power_of_two 5 = 8` and
`next_power_of_two 16 = 16`; `ceilSqrt` is the exact ceiling of the square
root. -/
theorem atlas_side_spec (l : List Sprite) (cell_w cell_h : Int) :
    (create_new_spritesheet l cell_w cell_h).1 =
      next_power_of_two (ceilSqrt ((l.length : Int) * cell_w * cell_h).toNat) ∧
    next_power_of_two 0 = 1 ∧
    next_power_of_two 5 = 8 ∧
    next_power_of_two 16 = 16 ∧
    (∀ a : Nat, a ≤ ceilSqrt a * ceilSqrt a ∧
      ∀ r : Nat, a ≤ r * r → ceilSqrt a ≤ r) ∧
    ∀ n : Nat, 1 ≤ n →
      n ≤ next_power_of_two n ∧ (∃ k, next_power_of_two n = 2 ^ k) ∧
        ∀ k : Nat, n ≤ 2 ^ k → next_power_of_two n ≤ 2 ^ k := by
  refine ⟨?_, by decide, by decide, by decide, ceilSqrt_spec,
    next_power_of_two_spec⟩
  simp [create_new_spritesheet, total_area_eq, mul_assoc]

/-- Witness for C3 at concrete inputs. -/
theorem atlas_side_spec_witness :
    next_power_of_two 5 ≤ 2 ^ 3 ∧ ceilSqrt 10 ≤ 4 :=
  ⟨((atlas_side_spec [] 0 0).2.2.2.2.2 5 (by decide)).2.2 3 (by decide),
   ((atlas_side_spec [] 0 0).2.2.2.2.1 10).2 4 (by decide)⟩

theorem parseSpritesAux_maxW :
    ∀ (sts : List SubTexture) (acc : List Sprite) (mw mh : Int),
      (parseSpritesAux sts acc mw mh).2.1 =
        next_multiple
          (sts.foldl (fun m st =>
            max m ((parseSprite st).width - (parseSprite st).pos_x)) mw)
          SPRITE_SIZE_MULTIPLE := by
  intro sts
  induction sts with
  | nil => intro acc mw mh; rfl
  | cons st rest ih =>
    intro acc mw mh
    simp only [parseSpritesAux, List.foldl_cons]
    exact ih _ _ _

theorem parseSpritesAux_maxH :
    ∀ (sts : List SubTexture) (acc : List Sprite) (mw mh : Int),
      (parseSpritesAux sts acc mw mh).2.2 =
        next_multiple
          (sts.foldl (fun m st =>
            max m ((parseSprite st).height - (parseSprite st).pos_y)) mh)
          SPRITE_SIZE_MULTIPLE := by
  intro sts
  induction sts with
  | nil => intro acc mw mh; rfl
  | cons st rest ih =>
    intro acc mw mh
    simp only [parseSpritesAux, List.foldl_cons]
    exact ih _ _ _

/-- Claim C5: the parser's two returned maxima are the maxima of
`width - pos_x` and `height - pos_y` over all constructed records, duplicates
included (independent of the catalog deduplication), each rounded up to the
next multiple of 4; `next_multiple n 4` is `n` when `n % 4 = 0` and otherwise
the smallest multiple of 4 strictly greater than `n`, e.g.
`next_multiple 5 4 = 8` and `next_multiple 8 4 = 8`. -/
theorem parse_sprites_maxima (sts : List SubTexture) (n : Int) :
    (parse_sprites sts).2.1 = next_multiple (maxTrimW sts) 4 ∧
    (parse_sprites sts).2.2 = next_multiple (maxTrimH sts) 4 ∧
    (n % 4 = 0 → next_multiple n 4 = n) ∧
    (n % 4 ≠ 0 →
      next_multiple n 4 % 4 = 0 ∧ n < next_multiple n 4 ∧
        ∀ m : Int, m % 4 = 0 → n < m → next_multiple n 4 ≤ m) ∧
    next_multiple 5 4 = 8 ∧ next_multiple 8 4 = 8 := by
  refine ⟨?_, ?_, ?_, ?_, by decide, by decide⟩
  · rw [parse_sprites, parseSpritesAux_maxW]
    rfl
  · rw [parse_sprites, parseSpritesAux_maxH]
    rfl
  · intro h
    simp [next_multiple, h]
  · intro h
    have hnm : next_multiple n 4 = n + (4 - n % 4) := by
      simp [next_multiple, h]
    refine ⟨by omega, by omega, fun m hm hlt => by omega⟩

/-- Witness for C5 at concrete inputs. -/
theorem parse_sprites_maxima_witness :
    next_multiple 8 4 = 8 ∧ next_multiple 5 4 % 4 = 0 ∧ next_multiple 5 4 ≤ 8 :=
  ⟨(parse_sprites_maxima [] 8).2.2.1 (by decide),
   ((parse_sprites_maxima [] 5).2.2.2.1 (by decide)).1,
   ((parse_sprites_maxima [] 5).2.2.2.1 (by decide)).2.2 8 (by decide)
     (by decide)⟩

theorem spriteEq_mkSprite_same_geometry (n1 n2 : String)
    (x y w h px py : Int) (r : Bool) :
    spriteEq (mkSprite n1 x y w h px py r) (mkSprite n2 x y w h px py r) =
      true := by
  cases r <;> simp [mkSprite, spriteEq]

/-- Claim C4 counterexample: two descriptors with identical
`x, y, width, height, frameX, frameY` but differing `rotated` (absent versus
present) yield a catalog of size 2, not 1 — the construction fixup swaps
`width`/`height` of the rotated record, so the two constructed records are
not geometry-equal when `width ≠ height`. -/
theorem parse_sprites_dedup_counterexample :
    (parse_sprites
      [⟨"a", 0, 0, 10, 20, none, none, none, none, none⟩,
       ⟨"a", 0, 0, 10, 20, none, none, none, none, some "true"⟩]).1.length
      ≠ 1 := by
  decide

/-- Claim C4 (amended): two raw descriptors with identical
`x, y, width, height, frameX, frameY` whose `rotated` attributes have the
same truthiness — in particular any pair differing only in `name` — collapse
to a catalog of size 1, because record equality compares solely the six
geometry fields and ignores `name` and `rotated`.  (When the `rotated`
truthiness differs, the constructed geometries differ unless width = height
and frameX = frameY, so such pairs need not deduplicate.) -/
theorem parse_sprites_dedup (a b : SubTexture)
    (hx : a.x = b.x) (hy : a.y = b.y) (hw : a.width = b.width)
    (hh : a.height = b.height) (hfx : a.frameX = b.frameX)
    (hfy : a.frameY = b.frameY)
    (hr : parseRotated a.rotated = parseRotated b.rotated) :
    (parse_sprites [a, b]).1.length = 1 ∧
    ∀ (s : Sprite) (t : Sprite) (n1 n2 : String) (r1 r2 : Bool),
      spriteEq ⟨n1, s.x, s.y, s.width, s.height, s.pos_x, s.pos_y, r1⟩ t =
        spriteEq ⟨n2, s.x, s.y, s.width, s.height, s.pos_x, s.pos_y, r2⟩ t := by
  constructor
  · have hba : spriteEq (parseSprite b) (parseSprite a) = true := by
      unfold parseSprite
      rw [hx, hy, hw, hh, hfx, hfy, hr]
      exact spriteEq_mkSprite_same_geometry b.name a.name b.x b.y b.width
        b.height (b.frameX.getD 0) (b.frameY.getD 0) (parseRotated b.rotated)
    simp [parse_sprites, parseSpritesAux, hba]
  · intro s t n1 n2 r1 r2
    rfl

/-- Witness for C4 (amended): same geometry, different names, both without a
`rotated` attribute — one catalog entry. -/
theorem parse_sprites_dedup_witness :
    (parse_sprites
      [⟨"a", 0, 0, 10, 20, none, none, none, none, none⟩,
       ⟨"b", 0, 0, 10, 20, none, none, none, none, none⟩]).1.length = 1 :=
  (parse_sprites_dedup
    ⟨"a", 0, 0, 10, 20, none, none, none, none, none⟩
    ⟨"b", 0, 0, 10, 20, none, none, none, none, none⟩
    rfl rfl rfl rfl rfl rfl rfl).1

theorem parseSpritesAux_mem :
    ∀ (sts : List SubTexture) (acc : List Sprite) (mw mh : Int) (s : Sprite),
      s ∈ acc → s ∈ (parseSpritesAux sts acc mw mh).1 := by
  intro sts
  induction sts with
  | nil => intro acc mw mh s hs; exact hs
  | cons st rest ih =>
    intro acc mw mh s hs
    simp only [parseSpritesAux]
    apply ih
    by_cases h : acc.any (fun t => spriteEq (parseSprite st) t) = true
    · rw [if_pos h]
      exact hs
    · rw [if_neg h]
      exact List.mem_append_left _ hs

theorem parseSpritesAux_covers :
    ∀ (sts : List SubTexture) (acc : List Sprite) (mw mh : Int)
      (st : SubTexture), st ∈ sts →
      ∃ t ∈ (parseSpritesAux sts acc mw mh).1,
        spriteEq (parseSprite st) t = true := by
  intro sts
  induction sts with
  | nil => intro acc mw mh st hst; cases hst
  | cons st0 rest ih =>
    intro acc mw mh st hst
    rcases List.mem_cons.1 hst with he | hm
    · subst he
      simp only [parseSpritesAux]
      by_cases h : acc.any (fun t => spriteEq (parseSprite st) t) = true
      · rcases List.any_eq_true.1 h with ⟨t, ht, heq⟩
        refine ⟨t, parseSpritesAux_mem rest _ _ _ t ?_, heq⟩
        rw [if_pos h]
        exact ht
      · refine ⟨parseSprite st, parseSpritesAux_mem rest _ _ _ _ ?_,
          spriteEq_refl _⟩
        rw [if_neg h]
        exact List.mem_append_right _ (List.mem_singleton.2 rfl)
    · simp only [parseSpritesAux]
      exact ih _ _ _ st hm

theorem findIndexEq_spec :
    ∀ (l : List Sprite) (s : Sprite), (∃ t ∈ l, spriteEq s t = true) →
      ∃ i, findIndexEq l s = some i ∧ i < l.length := by
  intro l
  induction l with
  | nil =>
    intro s hs
    rcases hs with ⟨t, ht, _⟩
    cases ht
  | cons t0 rest ih =>
    intro s hs
    by_cases h : spriteEq s t0 = true
    · exact ⟨0, by simp [findIndexEq, h], by simp⟩
    · rcases hs with ⟨t, ht, heq⟩
      rcases List.mem_cons.1 ht with he | hm
      · subst he
        exact absurd heq h
      · rcases ih s ⟨t, hm, heq⟩ with ⟨i, hi, hlen⟩
        refine ⟨i + 1, by simp [findIndexEq, h, hi], by simp; omega⟩

theorem update_isSome_of_lookup :
    ∀ (sts : List SubTexture) (cat nl : List Sprite),
      (∀ st ∈ sts, ∃ i, findIndexEq cat (parseSprite st) = some i ∧
        i < nl.length) →
      (update_xml_with_new_sprites sts cat nl).isSome = true := by
  intro sts
  induction sts with
  | nil => intro cat nl hcover; rfl
  | cons st rest ih =>
    intro cat nl hcover
    rcases hcover st (List.mem_cons_self st rest) with ⟨i, hi, hlen⟩
    simp only [update_xml_with_new_sprites, updateSubTexture, hi]
    rw [List.getElem?_eq_getElem hlen]
    have hrest := ih cat nl (fun st1 h1 => hcover st1 (List.mem_cons_of_mem _ h1))
    cases hr : update_xml_with_new_sprites rest cat nl with
    | none => rw [hr] at hrest; exact absurd hrest (by simp)
    | some outs => simp

/-- Claim C9: with the catalog parsed from the same descriptor sequence,
every re-derived record is geometry-equal to some catalog entry, and — with
the repacked list produced from that catalog — the metadata rewriter's
lookup/index error branch is unreachable: the whole rewrite succeeds. -/
theorem update_lookup_total (sts : List SubTexture) (cell_w cell_h : Int) :
    (sts.all fun st =>
      (parse_sprites sts).1.any fun t => spriteEq (parseSprite st) t) = true ∧
    (update_xml_with_new_sprites sts (parse_sprites sts).1
      (create_new_spritesheet (parse_sprites sts).1 cell_w cell_h).2.1).isSome
      = true := by
  constructor
  · refine List.all_eq_true.2 fun st hst => ?_
    rcases parseSpritesAux_covers sts [] 0 0 st hst with ⟨t, ht, heq⟩
    exact List.any_eq_true.2 ⟨t, ht, heq⟩
  · refine update_isSome_of_lookup sts _ _ fun st hst => ?_
    rcases findIndexEq_spec (parse_sprites sts).1 (parseSprite st)
      (parseSpritesAux_covers sts [] 0 0 st hst) with ⟨i, hi, hlen⟩
    refine ⟨i, hi, ?_⟩
    have he : (create_new_spritesheet (parse_sprites sts).1 cell_w
        cell_h).2.1.length = (parse_sprites sts).1.length := by
      simp [create_new_spritesheet, repackAux_length]
    omega

theorem updateSubTexture_some (cat nl : List Sprite) (st u : SubTexture)
    (h : updateSubTexture cat nl st = some u) :
    ∃ i ns, findIndexEq cat (parseSprite st) = some i ∧ nl[i]? = some ns ∧
      u = ⟨st.name, ns.x, ns.y, ns.width, ns.height, none, none, none, none,
        none⟩ := by
  simp only [updateSubTexture] at h
  split at h
  · cases h
  · rename_i i hfi
    split at h
    · cases h
    · rename_i ns hg
      cases h
      exact ⟨i, ns, hfi, hg, rfl⟩

/-- Claim C8: when the metadata rewrite succeeds it yields one output element
per input element; each output element's `x`, `y`, `width`, `height` equal
the fields of the repacked record at the index of the first catalog entry
geometry-equal to the element's re-derived record, its `name` is kept, and
its `frameX`, `frameY`, `frameWidth`, `frameHeight` and `rotated` attributes
are all absent, regardless of whether the original element carried them. -/
theorem update_rewrites_attributes (sts : List SubTexture)
    (cat nl : List Sprite) (out : List SubTexture)
    (h : update_xml_with_new_sprites sts cat nl = some out) :
    out.length = sts.length ∧
    ∀ p ∈ sts.zip out, ∃ i ns,
      findIndexEq cat (parseSprite p.1) = some i ∧ nl[i]? = some ns ∧
      p.2.x = ns.x ∧ p.2.y = ns.y ∧ p.2.width = ns.width ∧
      p.2.height = ns.height ∧ p.2.name = p.1.name ∧
      p.2.frameX = none ∧ p.2.frameY = none ∧ p.2.frameWidth = none ∧
      p.2.frameHeight = none ∧ p.2.rotated = none := by
  induction sts generalizing out with
  | nil =>
    simp only [update_xml_with_new_sprites, Option.some.injEq] at h
    subst h
    simp
  | cons st rest ih =>
    simp only [update_xml_with_new_sprites] at h
    cases hu : updateSubTexture cat nl st with
    | none => rw [hu] at h; cases h
    | some u =>
      rw [hu] at h
      cases hr : update_xml_with_new_sprites rest cat nl with
      | none => rw [hr] at h; cases h
      | some outs =>
        rw [hr] at h
        have hout : out = u :: outs := by
          cases h
          rfl
        subst hout
        have hrest := ih outs hr
        constructor
        · simp [hrest.1]
        · intro p hp
          rcases List.mem_cons.1 hp with he | hm
          · subst he
            rcases updateSubTexture_some cat nl st u hu with ⟨i, ns, hfi, hg, hue⟩
            subst hue
            exact ⟨i, ns, hfi, hg, rfl, rfl, rfl, rfl, rfl, rfl, rfl,
              rfl, rfl, rfl⟩
          · exact hrest.2 p hm

/-- Witness for C8: a one-element run through the full pipeline.  The input
element carries `frameWidth`, `frameHeight` and a `rotated = "false"`
attribute; the rewritten element keeps the name, takes the repacked cell
rectangle and loses all five obsolete attributes. -/
theorem update_rewrites_attributes_witness :
    ([(⟨"a", 0, 0, 4, 4, none, none, some 4, some 4,
        some "false"⟩ : SubTexture)].zip
      [(⟨"a", 0, 0, 4, 4, none, none, none, none, none⟩ : SubTexture)]).length
      = 1 ∧
    ([(⟨"a", 0, 0, 4, 4, none, none, none, none, none⟩ : SubTexture)]).length
      = 1 :=
  ⟨by decide,
    (update_rewrites_attributes
      [⟨"a", 0, 0, 4, 4, none, none, some 4, some 4, some "false"⟩]
      (parse_sprites
        [(⟨"a", 0, 0, 4, 4, none, none, some 4, some 4,
          some "false"⟩ : SubTexture)]).1
      (create_new_spritesheet
        (parse_sprites
          [(⟨"a", 0, 0, 4, 4, none, none, some 4, some 4,
            some "false"⟩ : SubTexture)]).1 4 4).2.1
      [⟨"a", 0, 0, 4, 4, none, none, none, none, none⟩]
      (by decide)).1⟩
